import Mathlib

/-!
Shallow embedding of the task store in `src/src/App.js` (simple-trello).

The store (`useTaskTracker`) keeps an ordered list of tasks.  A task is a JS
object with fields `id` (a uuid string), `title`, `description` (strings that
may be absent, e.g. on the rendering placeholder) and `status` (a plain
string; the `Status` table maps the four named statuses to their display
strings).  We embed tasks as a structure with `Option String` for the two
possibly-absent fields and `String` for `status`, since the code never
restricts which string `update` may write.
-/

namespace App

/-- The `Status` lookup table of `App.js` (lines 225-230).  Statuses are plain
strings in the source; these four definitions are the four table entries. -/
def Status.backlog : String := "Backlog"

def Status.inwork : String := "В работе"

def Status.done : String := "Выполнено"

def Status.empty : String := "Пусто"

/-- The three statuses a persisted task may meaningfully carry; `Status.empty`
is presentation-only. -/
def realStatuses : List String := [Status.backlog, Status.inwork, Status.done]

/-- A task object: `id`, `title`, `description`, `status`.  `title` and
`description` are `Option` because the empty-column placeholder object in
`taskFilter` carries neither field. -/
structure Task where
  id : String
  title : Option String
  description : Option String
  status : String
deriving DecidableEq, Repr

/-- `create` of `useTaskTracker` (App.js lines 15-25): build a task with a
freshly generated id (`uuid()`, passed here as the `newId` argument, since it
is an external random source), the given title and description, and status
`Status.backlog`, and cons it onto the front of the list. -/
def create (newId : String) (title description : String) (tasks : List Task) :
    List Task :=
  { id := newId, title := some title, description := some description,
    status := Status.backlog } :: tasks

/-- `update` of `useTaskTracker` (App.js lines 26-30): map over the list,
replacing the `status` field of any task whose `id` equals `taskId` by
`listId`, leaving every other task untouched. -/
def update (taskId : String) (listId : String) (tasks : List Task) : List Task :=
  tasks.map (fun task => if task.id == taskId then { task with status := listId } else task)

/-- `remove` of `useTaskTracker` (App.js lines 31-35): keep exactly the tasks
whose id differs from `taskId`. -/
def remove (taskId : String) (tasks : List Task) : List Task :=
  tasks.filter (fun task => taskId != task.id)

/-- `dropHandler` of `App` (App.js lines 83-85): dropping an item with id
`taskId` on the column `status` calls `update(taskId, status)`. -/
def dropHandler (status : String) (taskId : String) (tasks : List Task) : List Task :=
  update taskId status tasks

/-- `taskFilter` of `App` (App.js lines 87-93): filter the list by status; if
the result is empty, substitute a single placeholder object carrying only a
fresh uuid (`pid` here) and status `Status.empty`. -/
def taskFilter (pid : String) (tasks : List Task) (status : String) : List Task :=
  let result := tasks.filter (fun task => task.status == status)
  if result.length > 0 then result
  else [{ id := pid, title := none, description := none, status := Status.empty }]

/-- One step of the counting loop of `App` (App.js lines 103-125): the switch
increments one of the three counters according to the task's status, and the
default branch (any other status, e.g. `Status.empty`) does nothing. -/
def countStep (acc : Nat × Nat × Nat) (task : Task) : Nat × Nat × Nat :=
  if task.status == Status.backlog then (acc.1 + 1, acc.2.1, acc.2.2)
  else if task.status == Status.inwork then (acc.1, acc.2.1 + 1, acc.2.2)
  else if task.status == Status.done then (acc.1, acc.2.1, acc.2.2 + 1)
  else acc

/-- The `for (let task of tasks)` counting loop of `App`: fold `countStep`
over the list starting from three zero counters, yielding
`(backlogCounter, inworkCounter, doneCounter)`. -/
def statusCounts (tasks : List Task) : Nat × Nat × Nat :=
  tasks.foldl countStep (0, 0, 0)

/-- JS `x.toFixed(1)` for the nonnegative rationals the percent computation
produces: round to the nearest tenth (ties upward, as ECMAScript specifies
for positive arguments) and print with one digit after the point. -/
def toFixed1 (q : ℚ) : String :=
  let tenths : Int := round (q * 10)
  toString (tenths / 10) ++ "." ++ toString (tenths % 10)

/-- The value rendered for the completion percentage (App.js line 127): the
JS number `0` when `percent` is `NaN`, otherwise the string
`percent.toFixed(1)`. -/
inductive PercentOut where
  | nanZero : PercentOut
  | fixed : String → PercentOut
deriving DecidableEq, Repr

/-- Lines 126-127 of App.js over exact rationals:
`percent = doneCounter / (backlogCounter + doneCounter + inworkCounter) * 100`,
then `isNaN(percent) ? 0 : percent.toFixed(1)`.  In JS the expression is
`NaN` exactly when the counter sum is `0` (a `0/0` division, since the done
counter is bounded by the sum), so the `isNaN` branch is embedded as that
condition. -/
def percentDisplay (tasks : List Task) : PercentOut :=
  let c := statusCounts tasks
  if c.1 + c.2.2 + c.2.1 = 0 then PercentOut.nanZero
  else
    PercentOut.fixed
      (toFixed1 ((c.2.2 : ℚ) / ((c.1 : ℚ) + (c.2.2 : ℚ) + (c.2.1 : ℚ)) * 100))

/-- One call to the task store: the three mutating operations of
`useTaskTracker`, with the `uuid()` result of `create` made an explicit
argument. -/
inductive Op where
  | createOp : String → String → String → Op
  | updateOp : String → String → Op
  | removeOp : String → Op
deriving DecidableEq, Repr

/-- Apply one store call to the current task list. -/
def applyOp (tasks : List Task) : Op → List Task
  | Op.createOp newId title description => create newId title description tasks
  | Op.updateOp taskId listId => update taskId listId tasks
  | Op.removeOp taskId => remove taskId tasks

/-- Run a sequence of store calls starting from the empty list (the store's
initial state before rehydration). -/
def run (ops : List Op) : List Task :=
  ops.foldl applyOp []

/-- Task lists reachable from the empty list by store calls in which every
`create` receives a fresh uuid (distinct from all ids present — modelling
uuid uniqueness) and every `update` receives one of the three real statuses
(as every `update` call site in App.js does). -/
inductive Reach : List Task → Prop where
  | nil : Reach []
  | step_create {tasks : List Task} {newId title description : String} :
      Reach tasks → newId ∉ tasks.map Task.id →
      Reach (create newId title description tasks)
  | step_update {tasks : List Task} {taskId listId : String} :
      Reach tasks → listId ∈ realStatuses → Reach (update taskId listId tasks)
  | step_remove {tasks : List Task} {taskId : String} :
      Reach tasks → Reach (remove taskId tasks)

/-- Modelled from the spec: the repository configures persistence through the
`persist`/`createJSONStorage(() => localStorage)` middleware (App.js lines
37-40) whose serialization code is not part of this repository; the spec
describes the stored value as "a single JSON-serializable envelope ...
containing a version/metadata wrapper plus the task list as an array of
`\x7bid, title, description, status\x7d` objects".  This minimal JSON value
tree is the level at which that serialization is modelled. -/
inductive Json where
  | str : String → Json
  | num : Int → Json
  | arr : List Json → Json
  | obj : List (String × Json) → Json
deriving Repr

/-- Modelled from the spec: `JSON.stringify` of one task object (code outside
this repository) — present fields become string members, absent
(`undefined`) fields are omitted. -/
def taskToJson (t : Task) : Json :=
  Json.obj
    ([("id", Json.str t.id)] ++
     (match t.title with
      | some s => [("title", Json.str s)]
      | none => []) ++
     (match t.description with
      | some s => [("description", Json.str s)]
      | none => []) ++
     [("status", Json.str t.status)])

/-- Look up a member of a JSON object by key (first match, as property access
on parsed JSON). -/
def jsonLookup (fields : List (String × Json)) (key : String) : Option Json :=
  (fields.find? (fun field => field.1 == key)).map (fun field => field.2)

/-- Read a JSON value as a string, if it is one. -/
def jsonAsString : Json → Option String
  | Json.str s => some s
  | _ => none

/-- Modelled from the spec: deserializing one task from its JSON object —
`id` and `status` are string members; `title` and `description` are taken
when present as strings and are otherwise absent. -/
def taskFromJson : Json → Option Task
  | Json.obj fields =>
      match jsonLookup fields "id", jsonLookup fields "status" with
      | some (Json.str i), some (Json.str st) =>
          some { id := i,
                 title := (jsonLookup fields "title").bind jsonAsString,
                 description := (jsonLookup fields "description").bind jsonAsString,
                 status := st }
      | _, _ => none
  | _ => none

/-- Modelled from the spec: the envelope the `persist` middleware (code
outside this repository) writes under the `task-tracker-store` key — the
state (the task list) plus a version number as the metadata wrapper. -/
def storeToJson (tasks : List Task) : Json :=
  Json.obj
    [("state", Json.obj [("tasks", Json.arr (tasks.map taskToJson))]),
     ("version", Json.num 0)]

/-- Decode a list of task objects, failing if any element is not a
well-formed task object. -/
def tasksFromJson : List Json → Option (List Task)
  | [] => some []
  | j :: js =>
      match taskFromJson j, tasksFromJson js with
      | some t, some ts => some (t :: ts)
      | _, _ => none

/-- Modelled from the spec: deserializing a store snapshot — find
`state.tasks` in the envelope and decode every element. -/
def storeFromJson (j : Json) : Option (List Task) :=
  match j with
  | Json.obj fields =>
      match jsonLookup fields "state" with
      | some (Json.obj stateFields) =>
          match jsonLookup stateFields "tasks" with
          | some (Json.arr items) => tasksFromJson items
          | _ => none
      | _ => none
  | _ => none

/-! ## Helper lemmas -/

theorem foldl_countStep (tasks : List Task) (acc : Nat × Nat × Nat) :
    tasks.foldl countStep acc =
      (acc.1 + (tasks.filter (fun t => t.status == Status.backlog)).length,
       acc.2.1 + (tasks.filter (fun t => t.status == Status.inwork)).length,
       acc.2.2 + (tasks.filter (fun t => t.status == Status.done)).length) := by
  induction tasks generalizing acc with
  | nil => simp
  | cons t ts ih =>
    rw [List.foldl_cons, ih]
    by_cases h1 : t.status = Status.backlog
    · simp [countStep, List.filter_cons, h1, Status.backlog, Status.inwork,
        Status.done, Nat.add_comm, Nat.add_assoc, Nat.add_left_comm]
    · by_cases h2 : t.status = Status.inwork
      · simp [countStep, List.filter_cons, h1, h2, Status.backlog, Status.inwork,
          Status.done, Nat.add_comm, Nat.add_assoc, Nat.add_left_comm]
      · by_cases h3 : t.status = Status.done
        · simp [countStep, List.filter_cons, h1, h2, h3, Status.backlog,
            Status.inwork, Status.done, Nat.add_comm, Nat.add_assoc,
            Nat.add_left_comm]
        · simp [countStep, List.filter_cons, h1, h2, h3]

theorem statusCounts_eq_filter (tasks : List Task) :
    statusCounts tasks =
      ((tasks.filter (fun t => t.status == Status.backlog)).length,
       (tasks.filter (fun t => t.status == Status.inwork)).length,
       (tasks.filter (fun t => t.status == Status.done)).length) := by
  rw [statusCounts, foldl_countStep]
  simp

theorem taskFromJson_taskToJson (t : Task) : taskFromJson (taskToJson t) = some t := by
  obtain ⟨i, ti, d, st⟩ := t
  cases ti <;> cases d <;> rfl

theorem tasksFromJson_map_taskToJson (tasks : List Task) :
    tasksFromJson (tasks.map taskToJson) = some tasks := by
  induction tasks with
  | nil => rfl
  | cons t ts ih => simp [tasksFromJson, taskFromJson_taskToJson, ih]

theorem update_map_id (tasks : List Task) (taskId listId : String) :
    (update taskId listId tasks).map Task.id = tasks.map Task.id := by
  unfold update
  rw [List.map_map]
  apply List.map_congr_left
  intro t _
  by_cases h : t.id == taskId <;> simp [h, Function.comp]

theorem update_id_not_mem {tasks : List Task} {taskId listId : String}
    (h : taskId ∉ tasks.map Task.id) : update taskId listId tasks = tasks := by
  unfold update
  have hfix : ∀ t ∈ tasks,
      (if t.id == taskId then { t with status := listId } else t) = t := by
    intro t ht
    have hne : t.id ≠ taskId := fun heq => h (heq ▸ List.mem_map_of_mem Task.id ht)
    simp [hne]
  rw [List.map_congr_left hfix]
  simp

theorem remove_id_not_mem {tasks : List Task} {taskId : String}
    (h : taskId ∉ tasks.map Task.id) : remove taskId tasks = tasks := by
  unfold remove
  apply List.filter_eq_self.mpr
  intro t ht
  have hne : t.id ≠ taskId := fun heq => h (heq ▸ List.mem_map_of_mem Task.id ht)
  simpa using fun heq => hne heq.symm

theorem remove_length {tasks : List Task} {taskId : String}
    (hnd : (tasks.map Task.id).Nodup) (hmem : taskId ∈ tasks.map Task.id) :
    (remove taskId tasks).length + 1 = tasks.length := by
  induction tasks with
  | nil => cases hmem
  | cons t ts ih =>
    rw [List.map_cons, List.nodup_cons] at hnd
    rcases List.mem_cons.mp hmem with h1 | h2
    · have hrest : remove taskId ts = ts := remove_id_not_mem (h1 ▸ hnd.1)
      simp [remove, h1, List.filter_cons] at hrest ⊢
      simpa [remove] using hrest
    · have hne : t.id ≠ taskId := fun heq => hnd.1 (heq ▸ h2)
      have := ih hnd.2 h2
      simp [remove, List.filter_cons, Ne.symm hne] at this ⊢
      simpa [remove] using this

theorem mem_remove_iff (tasks : List Task) (taskId : String) (t : Task) :
    t ∈ remove taskId tasks ↔ t ∈ tasks ∧ t.id ≠ taskId := by
  unfold remove
  rw [List.mem_filter]
  constructor
  · rintro ⟨h1, h2⟩
    exact ⟨h1, fun heq => by simp [heq] at h2⟩
  · rintro ⟨h1, h2⟩
    exact ⟨h1, by simpa using fun heq => h2 heq.symm⟩

/-! ## Concrete sample data for witnesses -/

/-- A sample stored task with id `"a"`. -/
def taskA : Task :=
  { id := "a", title := some "x", description := some "y", status := Status.inwork }

/-- A sample stored task with id `"b"`. -/
def taskB : Task :=
  { id := "b", title := some "u", description := some "v", status := Status.backlog }

/-- The board of the statistics test case: two `Backlog`, one `inwork`, one
`done` task. -/
def exampleBoard : List Task :=
  [{ id := "1", title := some "t1", description := some "d1", status := Status.backlog },
   { id := "2", title := some "t2", description := some "d2", status := Status.backlog },
   { id := "3", title := some "t3", description := some "d3", status := Status.inwork },
   { id := "4", title := some "t4", description := some "d4", status := Status.done }]

/-! ## Claim theorems -/

/-- C1, counterexample to the claim as stated: the store performs no
validation, so a sequence of calls in which `update` receives the
presentation-only `Status.empty` leaves a persisted task whose status is
outside the closed set — the quantification over arbitrary `update` calls is
too strong. -/
theorem C1_counterexample :
    (run [Op.createOp "a" "T" "D", Op.updateOp "a" Status.empty]).map Task.status =
      [Status.empty] ∧
    Status.empty ∉ realStatuses := by
  constructor
  · rfl
  · decide

/-- C1, amended: for every sequence of store calls in which each `create`
receives a fresh uuid (distinct from all ids present, which models uuid
uniqueness) and each `update` receives one of the three real statuses (as at
every `update` call site in App.js), the resulting list has no duplicate ids
and every task's status lies in `{Backlog, InProgress, Done}`. -/
theorem C1_store_invariants {tasks : List Task} (h : Reach tasks) :
    (tasks.map Task.id).Nodup ∧ ∀ t ∈ tasks, t.status ∈ realStatuses := by
  induction h with
  | nil => simp
  | step_create hr hfresh ih =>
    constructor
    · rw [create, List.map_cons, List.nodup_cons]
      exact ⟨hfresh, ih.1⟩
    · intro t ht
      rcases List.mem_cons.mp ht with h1 | h2
      · subst h1
        show Status.backlog ∈ realStatuses
        decide
      · exact ih.2 t h2
  | @step_update ts taskId listId hr hs ih =>
    constructor
    · rw [update_map_id]
      exact ih.1
    · intro t ht
      rcases List.mem_map.mp ht with ⟨u, hu, hut⟩
      by_cases hid : u.id == taskId
      · rw [← hut]
        simp only [hid, if_pos]
        exact hs
      · rw [← hut]
        simp only [hid]
        simp only [Bool.false_eq_true, if_false]
        exact ih.2 u hu
  | step_remove hr ih =>
    constructor
    · exact ih.1.sublist (List.Sublist.map Task.id (List.filter_sublist _))
    · intro t ht
      exact ih.2 t (List.mem_of_mem_filter ht)

/-- Witness for C1 (amended): a concrete create-then-update run reaching a
one-task list with a unique id and a real status. -/
theorem C1_store_invariants_witness :
    ((update "a" Status.done (create "a" "T" "D" [])).map Task.id).Nodup ∧
    ∀ t ∈ update "a" Status.done (create "a" "T" "D" []),
      t.status ∈ realStatuses :=
  C1_store_invariants
    (Reach.step_update (Reach.step_create Reach.nil (by decide)) (by decide))

/-- C2: `create title description` with a fresh id prepends a new task: the
result is one longer, its head is the task with that id, title, description
and status `Backlog`, its tail is the previous list unchanged in order, and
the fresh id is distinct from every id already in the list. -/
theorem C2_create_prepends (tasks : List Task) (newId title description : String)
    (hfresh : newId ∉ tasks.map Task.id) :
    (create newId title description tasks).length = tasks.length + 1 ∧
    (create newId title description tasks).head? =
      some { id := newId, title := some title, description := some description,
             status := Status.backlog } ∧
    (create newId title description tasks).tail = tasks ∧
    ∀ t ∈ tasks, t.id ≠ newId := by
  refine ⟨rfl, rfl, rfl, ?_⟩
  intro t ht heq
  exact hfresh (heq ▸ List.mem_map_of_mem Task.id ht)

/-- Witness for C2: creating on a concrete one-task list. -/
theorem C2_create_prepends_witness :
    (create "b" "T" "D" [taskA]).head? =
      some { id := "b", title := some "T", description := some "D",
             status := Status.backlog } ∧
    (create "b" "T" "D" [taskA]).tail = [taskA] :=
  ⟨(C2_create_prepends [taskA] "b" "T" "D" (by decide)).2.1,
   (C2_create_prepends [taskA] "b" "T" "D" (by decide)).2.2.1⟩

/-- C3: on a list containing a task with id `X`, `update X S` preserves the
length and, position by position, replaces the status of the task whose id is
`X` by `S` — keeping its id, title and description — while leaving every
other task entirely unchanged; in particular the id sequence (and hence the
order) is untouched. -/
theorem C3_update_frame (tasks : List Task) (X S : String)
    (_hmem : X ∈ tasks.map Task.id) :
    (update X S tasks).length = tasks.length ∧
    (∀ j : Nat, ∀ t : Task, tasks[j]? = some t →
      (update X S tasks)[j]? =
        some (if t.id = X then
                { id := t.id, title := t.title, description := t.description,
                  status := S }
              else t)) ∧
    (update X S tasks).map Task.id = tasks.map Task.id := by
  refine ⟨by simp [update], ?_, update_map_id tasks X S⟩
  intro j t ht
  unfold update
  rw [List.getElem?_map, ht]
  by_cases h : t.id = X <;> simp [h]

/-- Witness for C3: updating the status of the second task of a concrete
two-task list. -/
theorem C3_update_frame_witness :
    (update "a" Status.done [taskB, taskA])[1]? =
      some { id := "a", title := some "x", description := some "y",
             status := Status.done } := by
  have h := (C3_update_frame [taskB, taskA] "a" Status.done (by decide)).2.1 1
    taskA rfl
  simpa [taskA] using h

/-- C4: `update` with an id matching no task is a no-op — the list is
returned unchanged (and, the operation being a total function, no error is
possible). -/
theorem C4_update_missing_id (tasks : List Task) (X S : String)
    (h : X ∉ tasks.map Task.id) : update X S tasks = tasks :=
  update_id_not_mem h

/-- Witness for C4: updating a nonexistent id on a concrete list. -/
theorem C4_update_missing_id_witness :
    update "zzz" Status.done [taskA] = [taskA] :=
  C4_update_missing_id [taskA] "zzz" Status.done (by decide)

/-- C5: `remove X` on a list with unique ids containing `X` shortens the list
by exactly one; in general its result holds exactly the tasks whose id is not
`X`, as a sublist (so in unchanged relative order) of the original; and on a
list not containing `X` it is the identity. -/
theorem C5_remove (tasks : List Task) (X : String) :
    ((tasks.map Task.id).Nodup → X ∈ tasks.map Task.id →
      (remove X tasks).length + 1 = tasks.length) ∧
    (∀ t : Task, t ∈ remove X tasks ↔ t ∈ tasks ∧ t.id ≠ X) ∧
    (remove X tasks).Sublist tasks ∧
    (X ∉ tasks.map Task.id → remove X tasks = tasks) := by
  exact ⟨fun hnd hmem => remove_length hnd hmem,
    mem_remove_iff tasks X,
    List.filter_sublist tasks,
    fun h => remove_id_not_mem h⟩

/-- Witness for C5: removing an existing id from a concrete two-task list and
removing a missing id from the same list. -/
theorem C5_remove_witness :
    (remove "a" [taskB, taskA]).length + 1 = 2 ∧
    remove "zzz" [taskB, taskA] = [taskB, taskA] :=
  ⟨(C5_remove [taskB, taskA] "a").1 (by decide) (by decide),
   (C5_remove [taskB, taskA] "zzz").2.2.2 (by decide)⟩

/-- C6: the derived statistics are a pure function of the list — the three
counters are exactly the numbers of tasks per real status; the displayed
percent is the JS number `0` on the empty list (the `NaN` fallback) and
otherwise the one-decimal rendering of
`done / (backlog + done + inwork) * 100`; and on the concrete board of two
`Backlog`, one `InProgress`, one `Done` task the counters are `(2, 1, 1)`
and the rendered percent is the string `"25.0"`. -/
theorem C6_statistics (tasks : List Task) :
    statusCounts tasks =
      ((tasks.filter (fun t => t.status == Status.backlog)).length,
       (tasks.filter (fun t => t.status == Status.inwork)).length,
       (tasks.filter (fun t => t.status == Status.done)).length) ∧
    (tasks = [] → percentDisplay tasks = PercentOut.nanZero) ∧
    (∀ b i d : Nat, statusCounts tasks = (b, i, d) → b + d + i ≠ 0 →
      percentDisplay tasks =
        PercentOut.fixed (toFixed1 ((d : ℚ) / ((b : ℚ) + (d : ℚ) + (i : ℚ)) * 100))) ∧
    statusCounts exampleBoard = (2, 1, 1) ∧
    percentDisplay exampleBoard = PercentOut.fixed "25.0" := by
  refine ⟨statusCounts_eq_filter tasks, ?_, ?_, by decide, ?_⟩
  · rintro rfl
    rfl
  · intro b i d hc hne
    simp only [percentDisplay, hc]
    rw [if_neg hne]
  · have hc : statusCounts exampleBoard = (2, 1, 1) := by decide
    simp only [percentDisplay, hc]
    rw [if_neg (by norm_num)]
    have harg : (((1:ℕ) : ℚ)) / (((2:ℕ) : ℚ) + ((1:ℕ) : ℚ) + ((1:ℕ) : ℚ)) * 100 =
        (25 : ℚ) := by norm_num
    rw [harg]
    have hr : round ((25 : ℚ) * 10) = 250 := by rw [round_eq]; norm_num
    simp only [toFixed1, hr]
    decide

/-- Witness for C6: the empty board renders the `NaN` fallback `0`, and the
concrete four-task board renders the one-decimal percent. -/
theorem C6_statistics_witness :
    percentDisplay [] = PercentOut.nanZero ∧
    percentDisplay exampleBoard =
      PercentOut.fixed
        (toFixed1 ((((1:ℕ)) : ℚ) / ((((2:ℕ)) : ℚ) + (((1:ℕ)) : ℚ) + (((1:ℕ)) : ℚ)) * 100)) :=
  ⟨(C6_statistics []).2.1 rfl,
   (C6_statistics exampleBoard).2.2.1 2 1 1 (by decide) (by decide)⟩

/-- C7: the column filter returns exactly the stored tasks with the requested
status (in list order) when any exist, and otherwise one synthetic
placeholder with status `Empty` and no title or description; everything it
returns is either a stored task or such a placeholder, and placing the
placeholder in front of a list changes none of the statistics counters (the
`Empty` status falls into the counting loop's default branch). -/
theorem C7_taskFilter (pid status : String) (tasks : List Task) :
    (tasks.filter (fun t => t.status == status) ≠ [] →
      taskFilter pid tasks status = tasks.filter (fun t => t.status == status)) ∧
    (tasks.filter (fun t => t.status == status) = [] →
      taskFilter pid tasks status =
        [{ id := pid, title := none, description := none, status := Status.empty }]) ∧
    (∀ t ∈ taskFilter pid tasks status, t ∈ tasks ∨ t.status = Status.empty) ∧
    statusCounts
        ({ id := pid, title := none, description := none,
           status := Status.empty } :: tasks) =
      statusCounts tasks := by
  refine ⟨?_, ?_, ?_, ?_⟩
  · intro h
    simp only [taskFilter]
    rw [if_pos (List.length_pos.mpr h)]
  · intro h
    simp only [taskFilter, h]
    rfl
  · intro t ht
    by_cases h : tasks.filter (fun t => t.status == status) = []
    · simp only [taskFilter, h] at ht
      rcases List.mem_singleton.mp (by simpa using ht) with rfl
      right
      rfl
    · simp only [taskFilter] at ht
      rw [if_pos (List.length_pos.mpr h)] at ht
      exact Or.inl (List.mem_of_mem_filter ht)
  · rfl

/-- Witness for C7: filtering a board with no `done` task for `done` yields
the placeholder, and filtering a board for a status it contains yields
exactly those tasks. -/
theorem C7_taskFilter_witness :
    taskFilter "p" [taskA] Status.done =
      [{ id := "p", title := none, description := none, status := Status.empty }] ∧
    taskFilter "p" [taskA] Status.inwork = [taskA] :=
  ⟨(C7_taskFilter "p" Status.done [taskA]).2.1 (by decide),
   ((C7_taskFilter "p" Status.inwork [taskA]).1 (by decide)).trans (by decide)⟩

/-- C8: persistence round trip — serializing any task list to the storage
JSON envelope (the shape the `persist` middleware writes under the
`task-tracker-store` key) and deserializing it back succeeds and yields the
same tasks, field for field, in the same order. -/
theorem C8_round_trip (tasks : List Task) :
    storeFromJson (storeToJson tasks) = some tasks :=
  tasksFromJson_map_taskToJson tasks

/-- C9: `update` validates nothing — for a list containing a task with id `X`
and any status string `S` whatsoever (including the presentation-only
`Empty`), `update X S` keeps the id sequence, gives every task whose id is
`X` the status `S`, and a task with id `X` remains present in the stored
result. -/
theorem C9_update_unvalidated (tasks : List Task) (X S : String)
    (hmem : X ∈ tasks.map Task.id) :
    (update X S tasks).map Task.id = tasks.map Task.id ∧
    (∀ t ∈ update X S tasks, t.id = X → t.status = S) ∧
    ∃ t ∈ update X S tasks, t.id = X := by
  refine ⟨update_map_id tasks X S, ?_, ?_⟩
  · intro t ht hid
    rcases List.mem_map.mp ht with ⟨u, hu, hut⟩
    by_cases h : u.id == X
    · rw [← hut]
      simp [h]
    · exfalso
      rw [← hut] at hid
      simp only [h, Bool.false_eq_true, if_false] at hid
      exact absurd hid (by simpa using h)
  · rcases List.mem_map.mp hmem with ⟨u, hu, hid⟩
    refine ⟨if u.id == X then { u with status := S } else u,
      List.mem_map_of_mem _ hu, ?_⟩
    simp [hid]

/-- Witness for C9: updating the only task of a concrete list to the
presentation-only `Empty` status keeps its id in the stored list (whose
status that task then carries is `Empty`, as the C1 counterexample shows
concretely). -/
theorem C9_update_unvalidated_witness :
    (update "a" Status.empty [taskA]).map Task.id = ["a"] :=
  ((C9_update_unvalidated [taskA] "a" Status.empty (by decide)).1).trans (by decide)

/-- C10: the empty-column placeholder carries only a fresh uuid and the
`Empty` status (no title, no description), and dropping it on a column — the
drop handler calling `update` with the placeholder's id — leaves the stored
list unchanged, because the fresh id matches no stored task. -/
theorem C10_placeholder_drop (pid status newStatus : String) (tasks : List Task)
    (hempty : tasks.filter (fun t => t.status == status) = [])
    (hfresh : pid ∉ tasks.map Task.id) :
    taskFilter pid tasks status =
      [{ id := pid, title := none, description := none, status := Status.empty }] ∧
    dropHandler newStatus pid tasks = tasks := by
  constructor
  · simp only [taskFilter, hempty]
    rfl
  · unfold dropHandler
    exact update_id_not_mem hfresh

/-- Witness for C10: the placeholder of the empty `done` column of a concrete
board, dropped onto the `backlog` column, leaves the board unchanged. -/
theorem C10_placeholder_drop_witness :
    taskFilter "p" [taskA] Status.done =
      [{ id := "p", title := none, description := none, status := Status.empty }] ∧
    dropHandler Status.backlog "p" [taskA] = [taskA] :=
  C10_placeholder_drop "p" Status.done Status.backlog [taskA] (by decide) (by decide)

end App
